import Mathlib

/-!
Shallow embedding of the meditech-backend speech-to-structured-record core:
the Gemini client (`app/services/gemini_api.py`), the transcription and
language-detection services (`app/services/transcription.py`), and the ASR
route orchestration (`app/routes/asr_routes.py`).

External effects (the remote Gemini service, the local ASR pipelines, the
langdetect classifier) are modelled as explicit oracle parameters; all the
control flow and string processing of the Python source is embedded as total,
structurally recursive Lean functions over those oracles, so that every
definition evaluates inside the kernel.

Python's string operations (`strip`, `lower`, `split`, `in`, `startswith`)
are modelled on the character list underlying `String`; `strip` and the regex
class `\s` cover the ASCII whitespace Python treats as such.
-/

namespace Meditech

/-- The ASCII whitespace characters Python's `str.strip()` and the regex
class `\s` remove. -/
def pySpace (c : Char) : Bool :=
  c = ' ' || c = '\t' || c = '\n' || c = '\r' || c = '\x0b' || c = '\x0c'

/-- `l` with leading and trailing Python whitespace removed. -/
def stripChars (l : List Char) : List Char :=
  ((l.dropWhile pySpace).reverse.dropWhile pySpace).reverse

/-- Python `s.strip()`. -/
def pyStrip (s : String) : String :=
  (stripChars s.data).asString

/-- Python `s.lower()` (ASCII case folding). -/
def pyLower (s : String) : String :=
  (s.data.map Char.toLower).asString

/-- Python `s.split(sep)` for a one-character separator, on character lists:
consecutive separators produce empty groups, and the empty input gives one
empty group. -/
def splitChar (sep : Char) : List Char → List (List Char)
  | [] => [[]]
  | c :: cs =>
    match splitChar sep cs with
    | [] => [[c]]
    | g :: gs => if c = sep then [] :: g :: gs else (c :: g) :: gs

/-- Python `s.split("\n")`. -/
def pySplitLines (s : String) : List String :=
  (splitChar '\n' s.data).map List.asString

/-- Whether the character list holds a colon; Python `":" in line`. -/
def containsColon (l : List Char) : Bool :=
  l.any (fun c => decide (c = ':'))

/-- Characters before / after the first colon; Python `line.split(":", 1)`
(only used on lines that contain a colon). -/
def breakColon : List Char → List Char × List Char
  | [] => ([], [])
  | c :: cs =>
    if c = ':' then ([], cs)
    else
      let p := breakColon cs
      (c :: p.1, p.2)

/-- Python `needle`-is-initial-segment-of-`hay` on character lists. -/
def listStarts : List Char → List Char → Bool
  | [], _ => true
  | _ :: _, [] => false
  | a :: as, b :: bs => a == b && listStarts as bs

/-- Character-list scan underlying Python substring containment. -/
def subChars (needle : List Char) : List Char → Bool
  | [] => needle.isEmpty
  | c :: rest => listStarts needle (c :: rest) || subChars needle rest

/-- Python `needle in hay` (substring containment). -/
def hasSubstr (hay needle : String) : Bool :=
  subChars needle.data hay.data

/-- Python `hay.startswith(needle)` (used to state the spec's prefix claims). -/
def strStartsWith (needle hay : String) : Bool :=
  listStarts needle.data hay.data

/-- Whether an association list (a Python dict in insertion order) binds key
`k`; Python `k in d`. -/
def hasKey (l : List (String × String)) (k : String) : Bool :=
  l.any (fun p => decide (p.1 = k))

/-- Value bound to `k` in an association list; Python `d[k]`. -/
def lookupKey (l : List (String × String)) (k : String) : Option String :=
  (l.find? (fun p => decide (p.1 = k))).map Prod.snd

/-- Python `"\n".join(parts)` (for any separator). -/
def joinWith (sep : String) : List String → String
  | [] => ""
  | x :: xs => xs.foldl (fun acc y => acc ++ sep ++ y) x

/-! ## `extract_emr` and `generate_suggestions` (`app/services/gemini_api.py`) -/

/-- The five required EMR record fields of `extract_emr`. -/
def requiredKeys : List String :=
  ["Presenting Complaint", "History of Presenting Illness",
   "Past Medical History", "Current Medications", "Allergies"]

/-- The five suggestion categories of `generate_suggestions`. -/
def suggestionKeys : List String :=
  ["Differential Diagnosis", "Further Investigations", "Potential Treatment Options",
   "Specialist Referrals (if applicable)", "Follow-up Recommendations"]

/-- Case-insensitive match of a parsed key against the closed field list:
`next((rk for rk in required_keys if rk.lower() == normalized_key.lower()), None)`.
(The source's `key.replace(':','')` normalization is the identity here, since
the key is everything before the first colon.) -/
def matchKey (required : List String) (key : String) : Option String :=
  required.find? (fun rk => decide (pyLower rk = pyLower key))

/-- One line of the `KEY: VALUE` response parser shared by `extract_emr` and
`generate_suggestions`: a line with a colon splits at the first colon, the key
is matched case-insensitively against the closed list (with the source's
redundant exact-match `elif`), duplicate and unmatched keys are dropped, and
all other lines are ignored. -/
def parseKVLine (required : List String) (acc : List (String × String))
    (rawLine : String) : List (String × String) :=
  let line := pyStrip rawLine
  if containsColon line.data then
    let kv := breakColon line.data
    let key := pyStrip kv.1.asString
    let value := pyStrip kv.2.asString
    match matchKey required key with
    | some mk =>
      if hasKey acc mk then
        if required.any (fun rk => decide (rk = key)) && !hasKey acc key then
          acc ++ [(key, value)]
        else acc
      else acc ++ [(mk, value)]
    | none =>
      if required.any (fun rk => decide (rk = key)) && !hasKey acc key then
        acc ++ [(key, value)]
      else acc
  else acc

/-- Line-by-line parse of a model response: `result.strip().split("\n")`
folded through `parseKVLine`. -/
def parseKV (required : List String) (result : String) : List (String × String) :=
  (pySplitLines (pyStrip result)).foldl (parseKVLine required) []

/-- One step of the final fill loop:
`if key not in emr_data: emr_data[key] = sentinel`. -/
def fillStep (sentinel : String) (acc : List (String × String)) (k : String) :
    List (String × String) :=
  if hasKey acc k then acc else acc ++ [(k, sentinel)]

/-- `for key in required_keys: if key not in emr_data: emr_data[key] = sentinel`. -/
def fillMissing (required : List String) (sentinel : String)
    (emr : List (String × String)) : List (String × String) :=
  required.foldl (fillStep sentinel) emr

/-- The pairs `extract_emr` parses out of the Gemini reply before the fill
loop; `none` and the empty reply (both falsy in `if result:`) parse to nothing. -/
def emrParsed (api : Option String) : List (String × String) :=
  match api with
  | some r => if r = "" then [] else parseKV requiredKeys r
  | none => []

/-- `extract_emr` from `app/services/gemini_api.py`: empty input text returns
`{}` at once; otherwise the Gemini reply (oracle `api`) is parsed and every
missing required key is filled with `"Not mentioned"`. -/
def extract_emr (text : String) (api : Option String) : List (String × String) :=
  if text = "" then []
  else fillMissing requiredKeys "Not mentioned" (emrParsed api)

/-- `generate_suggestions` from `app/services/gemini_api.py`: returns `{}`
when the record is empty or wholly `"not mentioned"`, otherwise parses the
Gemini reply (oracle `api`) against the suggestion categories and fills
missing categories with `"Not specified"`. -/
def generate_suggestions (emr : List (String × String)) (api : Option String) :
    List (String × String) :=
  if emr.isEmpty || emr.all (fun p => decide (pyLower p.2 = "not mentioned")) then []
  else
    let emrString := joinWith "\n"
      ((emr.filter (fun p => !decide (pyLower p.2 = "not mentioned"))).map
        (fun p => "- " ++ p.1 ++ ": " ++ p.2))
    if emrString = "" then []
    else
      let parsed := match api with
        | some r => if r = "" then [] else parseKV suggestionKeys r
        | none => []
      fillMissing suggestionKeys "Not specified" parsed

/-! ## `call_gemini_api` (`app/services/gemini_api.py`) -/

/-- What one attempt of the retry loop observes from the remote service:
an HTTP error status (with an optional integral `Retry-After` header), one of
the four layered response-shape defects, a usable text, or one of the caught
transport/unexpected exceptions. -/
inductive AttemptOutcome where
  | httpError (status : Nat) (retryAfter : Option Nat)
  | noCandidates
  | noContent
  | noParts
  | noText
  | success (text : String)
  | timeout
  | connError
  | otherExc
deriving DecidableEq

/-- Result of `call_gemini_api`: the returned value (`none` is Python `None`),
how many attempts issued a request, and the argument of each `asyncio.sleep`
in order. -/
structure CallResult where
  result : Option String
  attempts : Nat
  sleeps : List Nat
deriving DecidableEq

/-- The `for attempt in range(retries + 1)` loop of `call_gemini_api`.
`idx` is the current attempt index, `left` the number of loop iterations still
available (so `left = retries + 1 - idx`, and Python's `attempt < retries`
is `1 < left`, i.e. `0 < l` after `left = l + 1`), `delay` the current value of
the mutable `delay` variable. Rate-limit (429) retries sleep the
`Retry-After` value when present (else `delay * 2`) and assign it to `delay`;
server errors (5xx), timeouts and connection errors sleep `delay` and double
it; shape defects and unexpected exceptions sleep `delay` without doubling;
any other HTTP error, or an exhausted budget, returns `None`. -/
def callLoop (out : Nat → AttemptOutcome) :
    Nat → Nat → Nat → Nat → List Nat → CallResult
  | _, 0, _, count, sleeps => ⟨none, count, sleeps⟩
  | idx, l + 1, delay, count, sleeps =>
    match out idx with
    | .success t => ⟨some (pyStrip t), count + 1, sleeps⟩
    | .noCandidates | .noContent | .noParts | .noText =>
      if 0 < l then callLoop out (idx + 1) l delay (count + 1) (sleeps ++ [delay])
      else ⟨none, count + 1, sleeps⟩
    | .httpError status ra =>
      if status = 429 ∧ 0 < l then
        let retryAfter := ra.getD (delay * 2)
        callLoop out (idx + 1) l retryAfter (count + 1) (sleeps ++ [retryAfter])
      else if 500 ≤ status ∧ status < 600 ∧ 0 < l then
        callLoop out (idx + 1) l (delay * 2) (count + 1) (sleeps ++ [delay])
      else ⟨none, count + 1, sleeps⟩
    | .timeout | .connError =>
      if 0 < l then callLoop out (idx + 1) l (delay * 2) (count + 1) (sleeps ++ [delay])
      else ⟨none, count + 1, sleeps⟩
    | .otherExc =>
      if 0 < l then callLoop out (idx + 1) l delay (count + 1) (sleeps ++ [delay])
      else ⟨none, count + 1, sleeps⟩

/-- `call_gemini_api` from `app/services/gemini_api.py`, with the per-attempt
service behaviour as oracle `out`; an unconfigured API URL returns `None`
before any attempt. Defaults: `retries = 2`, `delay = 2`. -/
def call_gemini_api (urlConfigured : Bool) (out : Nat → AttemptOutcome)
    (retries delay : Nat) : CallResult :=
  if urlConfigured then callLoop out 0 (retries + 1) delay 0 []
  else ⟨none, 0, []⟩

/-! ## `translate_with_gemini` (`app/services/gemini_api.py`) -/

/-- Case-insensitive match of the literal `english translation:` at the head
of `cs` (the pattern is all lowercase, so each input character is folded). -/
def ciStarts : List Char → List Char → Bool
  | [], _ => true
  | _ :: _, [] => false
  | p :: ps, c :: cs => p == c.toLower && ciStarts ps cs

/-- Greedy `\s*` after a matched label: drop Python whitespace, tracking
whether the last dropped character was a newline (which is what makes the
next scan position a `re.MULTILINE` line start). -/
def dropWsAux : List Char → Bool → List Char × Bool
  | [], last => ([], last)
  | c :: cs, last =>
    if pySpace c then dropWsAux cs (c = '\n') else (c :: cs, last)

/-- `re.sub(r'^(english translation:|---)\s*', '', s, flags=IGNORECASE|MULTILINE)`:
scan the text; at every line start, delete a leading `english translation:`
(case-insensitive) or `---` together with the following whitespace run.
The fuel is the list length, which bounds the number of scan steps. -/
def stripLabelsAux : Nat → Bool → List Char → List Char
  | 0, _, cs => cs
  | _ + 1, _, [] => []
  | fuel + 1, atStart, c :: cs =>
    if atStart && ciStarts "english translation:".data (c :: cs) then
      let p := dropWsAux ((c :: cs).drop "english translation:".data.length) false
      stripLabelsAux fuel p.2 p.1
    else if atStart && listStarts "---".data (c :: cs) then
      let p := dropWsAux ((c :: cs).drop 3) false
      stripLabelsAux fuel p.2 p.1
    else c :: stripLabelsAux fuel (decide (c = '\n')) cs

/-- The post-processing of a received translation: the label-stripping
`re.sub` followed by `.strip()`. -/
def canonicalizeTranslation (s : String) : String :=
  pyStrip (stripLabelsAux s.data.length true s.data).asString

/-- `translate_with_gemini` from `app/services/gemini_api.py`, with the
Gemini reply as oracle `api` (`none` is a failed `call_gemini_api`): empty
input and failed or empty replies return the `Translation unavailable`
sentinels; otherwise the reply is canonicalized. -/
def translate_with_gemini (text : String) (api : Option String) : String :=
  if text = "" then "Translation unavailable: No input text"
  else
    match api with
    | some t => if t = "" then "Translation unavailable" else canonicalizeTranslation t
    | none => "Translation unavailable"

/-! ## `run_pipeline_async` (`app/services/transcription.py`) -/

/-- Shape of a raw ASR pipeline output: a dict with a string `text` field, a
plain string, or anything else (carried as its `str()` rendering; `none` is
Python `None`, which — like a failed conversion — becomes the empty string). -/
inductive RawOut where
  | dictText (s : String)
  | plainStr (s : String)
  | other (repr : Option String)
deriving DecidableEq

/-- The output standardization of `run_pipeline_async`: extract and strip the
text of any accepted shape. -/
def rawText : RawOut → String
  | .dictText s => pyStrip s
  | .plainStr s => pyStrip s
  | .other (some r) => pyStrip r
  | .other none => ""

/-- `run_pipeline_async` from `app/services/transcription.py`, reduced to the
`text` field of the dictionary it returns. `registry` is the read-only
`asr_models` key set and `infer` the underlying inference (`Except.error` is a
raised exception): a missing model key or a raised inference yields the two
error texts of the source, a normal result is normalized by `rawText`. -/
def run_pipeline_async (registry : List String) (key : String)
    (infer : Except Unit RawOut) : String :=
  if !registry.any (fun k => decide (k = key)) then
    "Error: Pipeline '" ++ key ++ "' not available."
  else
    match infer with
    | .error _ => "Error during transcription processing with '" ++ key ++ "'."
    | .ok raw => rawText raw

/-! ## `detect_language_from_audio` (`app/services/transcription.py`) -/

/-- The oracles and configuration of the language detection engine:
chunk length and text-length threshold from the Flask config, the `asr_models`
key set, the two concurrently gathered pipeline tasks (`none` is a task-level
exception captured by `asyncio.gather(..., return_exceptions=True)`), and the
seeded `langdetect` top-guess classifier (`none` is a failed, empty or
erroring classification). -/
structure DetectEnv where
  chunkSizeMs : Nat
  minTextLen : Nat
  registry : List String
  mlTask : Option (Except Unit RawOut)
  enTask : Option (Except Unit RawOut)
  classify : String → Option String

/-- Text taken from one gathered detection task: a captured task exception
gives `""`, and a pipeline text carrying `Error:` is cleared to `""` for
detection purposes. -/
def detectTextOf (registry : List String) (key : String)
    (task : Option (Except Unit RawOut)) : String :=
  match task with
  | none => ""
  | some infer =>
    let t := run_pipeline_async registry key infer
    if hasSubstr t "Error:" then "" else t

/-- The ordered decision table resolving the pair of `langdetect`
classifications `(mlGuess, enGuess)` of `detect_language_from_audio`
(first match wins; everything else defaults to English). -/
def decideLanguage (mlGuess enGuess : Option String) : String :=
  if mlGuess = some "ml" ∧ enGuess ≠ some "en" then "ml"
  else if enGuess = some "en" ∧ mlGuess ≠ some "ml" then "en"
  else if mlGuess = some "ml" ∧ enGuess = some "ml" then "ml"
  else if mlGuess = some "en" ∧ enGuess = some "en" then "en"
  else if mlGuess = some "ml" ∧ enGuess = none then "ml"
  else if enGuess = some "en" ∧ mlGuess = none then "en"
  else "en"

/-- `detect_language_from_audio` from `app/services/transcription.py`:
invalid audio or sample rate, an empty chunk, or missing detection models
default to `"en"`; otherwise both models run on the leading chunk, their
outputs are classified when long enough, and the decision table resolves the
pair. `audioLen` is the sample count of the (1-D) audio buffer and `sr` the
sample rate. -/
def detect_language_from_audio (audioLen : Nat) (sr : Int) (env : DetectEnv) :
    String :=
  if audioLen = 0 then "en"
  else if sr ≤ 0 then "en"
  else
    let chunkSamples := env.chunkSizeMs * sr.toNat / 1000
    let chunkLen :=
      if chunkSamples = 0 then audioLen
      else if audioLen ≤ chunkSamples then audioLen
      else chunkSamples
    if chunkLen = 0 then "en"
    else if !env.registry.any (fun k => decide (k = "whisper_ml")) ||
            !env.registry.any (fun k => decide (k = "whisper_en")) then "en"
    else
      let mlText := detectTextOf env.registry "whisper_ml" env.mlTask
      let enText := detectTextOf env.registry "whisper_en" env.enTask
      let dMl := if mlText ≠ "" ∧ env.minTextLen ≤ mlText.length
                 then env.classify mlText else none
      let dEn := if enText ≠ "" ∧ env.minTextLen ≤ enText.length
                 then env.classify enText else none
      decideLanguage dMl dEn

/-! ## `transcribe_audio_route` steps 4–6 (`app/routes/asr_routes.py`) -/

/-- The sentinel/placeholder value set of the route's meaningfulness gate. -/
def sentinelValues : List String := ["not mentioned", "none", "n/a", ""]

/-- The route's meaningfulness gate over an extracted record:
`any(v and isinstance(v, str) and v.lower() not in [...] for v in emr.values())`. -/
def isMeaningfulEmr (emr : List (String × String)) : Bool :=
  emr.any (fun p => !decide (p.2 = "") &&
    !sentinelValues.any (fun s => decide (s = pyLower p.2)))

/-- Oracles of one request's processing: the `asr_models` key set, the two
transcription pipelines' behaviour on the full audio, and the Gemini replies
for the translation, extraction and suggestion prompts. -/
structure RouteEnv where
  registry : List String
  mlInfer : Except Unit RawOut
  enInfer : Except Unit RawOut
  translateApi : Option String
  emrApi : Option String
  suggApi : Option String

/-- Output of the EMR/suggestion stage (route step 5), together with which
Gemini-backed stages were actually invoked. -/
structure StageOut where
  emr : List (String × String)
  suggestions : List (String × String)
  extractCalled : Bool
  suggestCalled : Bool

/-- Route step 5: extraction and suggestion generation run only on non-empty,
non-error final English text; the suggestion call is additionally gated on
the meaningfulness of the extracted record, and skipped stages leave
informational flags. -/
def emrSuggestStage (env : RouteEnv) (finalText : String) : StageOut :=
  if finalText ≠ "" ∧ hasSubstr finalText "Error:" = false then
    let emr := extract_emr finalText env.emrApi
    if emr ≠ [] then
      if isMeaningfulEmr emr then
        ⟨emr, generate_suggestions emr env.suggApi, true, true⟩
      else
        ⟨emr, [("info", "Suggestions not generated due to non-informative EMR data.")],
         true, false⟩
    else
      ⟨emr, [("info", "Suggestions not generated because EMR extraction was empty.")],
       true, false⟩
  else
    ⟨[("info", "EMR not generated due to issues in prior steps.")],
     [("info", "Suggestions not generated due to issues in prior steps.")],
     false, false⟩

/-- The success response object of the route (step 6), minus the constant
`status` field. -/
structure RouteResponse where
  detectionMethod : String
  effectiveLanguage : String
  rawTranscription : String
  processedText : String
  emr : List (String × String)
  suggestions : List (String × String)

/-- Outcome of one request from the transcription step on: either the
`InternalServerError` message raised on a fatal transcription, or the
assembled response; plus which degradable stages were invoked. -/
structure RouteOutcome where
  result : Except String RouteResponse
  translateCalled : Bool
  extractCalled : Bool
  suggestCalled : Bool

/-- The raw transcription the route computes in step 4:
`run_pipeline_async(...)` on the model matching the resolved language,
then `.get("text", "").strip()`. -/
def transcribedRaw (lang : String) (env : RouteEnv) : String :=
  if lang = "ml" then pyStrip (run_pipeline_async env.registry "whisper_ml" env.mlInfer)
  else pyStrip (run_pipeline_async env.registry "whisper_en" env.enInfer)

/-- Steps 4–6 of `transcribe_audio_route` from `app/routes/asr_routes.py`,
entered after language resolution with the resolved language `lang` and the
detection method already fixed. A raw transcription containing `Error:`
raises `InternalServerError` (the only fatal stage). On the Malayalam path a
non-empty transcription is translated; an empty translation or one containing
`unavailable` (case-insensitively) clears the final English text. Step 5 then
degrades or runs extraction/suggestions, and step 6 assembles the response. -/
def transcribe_audio_route (detectionMethod lang : String) (env : RouteEnv) :
    RouteOutcome :=
  if lang = "ml" then
    let raw := pyStrip (run_pipeline_async env.registry "whisper_ml" env.mlInfer)
    if hasSubstr raw "Error:" then
      ⟨.error ("Transcription failed: " ++ raw), false, false, false⟩
    else if raw = "" then
      let st := emrSuggestStage env ""
      ⟨.ok ⟨detectionMethod, "ml", raw, "", st.emr, st.suggestions⟩,
       false, st.extractCalled, st.suggestCalled⟩
    else
      let t := translate_with_gemini raw env.translateApi
      let finalText := if t = "" ∨ hasSubstr (pyLower t) "unavailable" then "" else t
      let st := emrSuggestStage env finalText
      ⟨.ok ⟨detectionMethod, "ml", raw, finalText, st.emr, st.suggestions⟩,
       true, st.extractCalled, st.suggestCalled⟩
  else
    let raw := pyStrip (run_pipeline_async env.registry "whisper_en" env.enInfer)
    if hasSubstr raw "Error:" then
      ⟨.error ("Transcription failed: " ++ raw), false, false, false⟩
    else
      let st := emrSuggestStage env raw
      ⟨.ok ⟨detectionMethod, "en", raw, raw, st.emr, st.suggestions⟩,
       false, st.extractCalled, st.suggestCalled⟩

/-! ## Concrete oracle environments used by the witness theorems -/

/-- A service that always answers with a 503 server error. -/
def out5xx : Nat → AttemptOutcome := fun _ => .httpError 503 none

/-- A service answering 500, then 429 without `Retry-After`, then success. -/
def out429 : Nat → AttemptOutcome := fun i =>
  if i = 0 then .httpError 500 none
  else if i = 1 then .httpError 429 none
  else .success "ok"

/-- A request whose model registry is empty, so transcription reports the
`Error:`-marked pipeline-not-available text. -/
def envMissingModel : RouteEnv := ⟨[], .ok (.dictText "x"), .ok (.dictText "y"), none, none, none⟩

/-- A healthy English request whose transcription legitimately succeeds. -/
def envPlainEnglish : RouteEnv :=
  ⟨["whisper_en", "whisper_ml"], .ok (.dictText "x"),
   .ok (.dictText "we chatted about the weather"), none, none, none⟩

/-- An English request whose successful transcription contains `Error:`
mid-sentence. -/
def envSpokenError : RouteEnv :=
  ⟨["whisper_en", "whisper_ml"], .ok (.dictText "x"),
   .ok (.plainStr "The nurse read Error: E11 from the screen"), none, none, none⟩

/-- A Malayalam request whose successful translation happens to contain the
word `unavailable`. -/
def envUnavailableWord : RouteEnv :=
  ⟨["whisper_en", "whisper_ml"], .ok (.dictText "rogi paranja karyangal"),
   .ok (.dictText "x"), some "The specialist was unavailable that month", none, none⟩

end Meditech

namespace Meditech

/-! ## Association-list lemmas -/

theorem hasKey_append (l₁ l₂ : List (String × String)) (k : String) :
    hasKey (l₁ ++ l₂) k = (hasKey l₁ k || hasKey l₂ k) := by
  simp [hasKey, List.any_append]

theorem hasKey_eq_find? (l : List (String × String)) (k : String) :
    hasKey l k = (List.find? (fun p => decide (p.1 = k)) l).isSome := by
  induction l with
  | nil => rfl
  | cons p t ih =>
    by_cases h : p.1 = k
    · simp [hasKey, h]
    · simpa [hasKey, h] using ih

theorem lookupKey_append (l₁ l₂ : List (String × String)) (k : String) :
    lookupKey (l₁ ++ l₂) k = if hasKey l₁ k then lookupKey l₁ k else lookupKey l₂ k := by
  rw [lookupKey, List.find?_append, hasKey_eq_find?]
  cases hf : List.find? (fun p => decide (p.1 = k)) l₁ with
  | none => simp [lookupKey, hf]
  | some v => simp [lookupKey, hf]

theorem lookupKey_isSome (l : List (String × String)) (k : String) :
    (lookupKey l k).isSome = hasKey l k := by
  rw [lookupKey, hasKey_eq_find?]
  cases List.find? (fun p => decide (p.1 = k)) l <;> rfl

theorem hasKey_exists (l : List (String × String)) (k : String)
    (h : hasKey l k = true) : ∃ p ∈ l, p.1 = k := by
  simpa [hasKey, List.any_eq_true] using h

/-! ## Parser and fill-loop lemmas -/

theorem parseKVLine_sub (required : List String) (acc : List (String × String))
    (line : String) :
    parseKVLine required acc line = acc ∨
    ∃ k v, parseKVLine required acc line = acc ++ [(k, v)] ∧ k ∈ required := by
  simp only [parseKVLine]
  split
  · split
    · rename_i mk hmk
      split
      · split
        · rename_i hcond
          right
          refine ⟨_, _, rfl, ?_⟩
          simp only [Bool.and_eq_true, List.any_eq_true, decide_eq_true_eq] at hcond
          rcases hcond.1 with ⟨rk, hrk, hrkeq⟩
          rwa [hrkeq] at hrk
        · left; rfl
      · right
        exact ⟨_, _, rfl, List.mem_of_find?_eq_some hmk⟩
    · split
      · rename_i hcond
        right
        refine ⟨_, _, rfl, ?_⟩
        simp only [Bool.and_eq_true, List.any_eq_true, decide_eq_true_eq] at hcond
        rcases hcond.1 with ⟨rk, hrk, hrkeq⟩
        rwa [hrkeq] at hrk
      · left; rfl
  · left; rfl

theorem parseKVLine_keys (required : List String) (acc : List (String × String))
    (line : String) (h : ∀ p ∈ acc, p.1 ∈ required) :
    ∀ p ∈ parseKVLine required acc line, p.1 ∈ required := by
  intro p hp
  rcases parseKVLine_sub required acc line with he | ⟨k, v, he, hk⟩
  · rw [he] at hp; exact h p hp
  · rw [he] at hp
    rcases List.mem_append.mp hp with h' | h'
    · exact h p h'
    · simp only [List.mem_singleton] at h'
      subst h'
      exact hk

theorem parse_foldl_keys (required : List String) :
    ∀ (lines : List String) (acc : List (String × String)),
      (∀ p ∈ acc, p.1 ∈ required) →
      ∀ p ∈ lines.foldl (parseKVLine required) acc, p.1 ∈ required := by
  intro lines
  induction lines with
  | nil => intro acc h p hp; exact h p (by simpa using hp)
  | cons line rest ih =>
    intro acc h p hp
    exact ih (parseKVLine required acc line) (parseKVLine_keys required acc line h) p
      (by simpa using hp)

theorem parseKV_keys (required : List String) (result : String) :
    ∀ p ∈ parseKV required result, p.1 ∈ required := by
  intro p hp
  exact parse_foldl_keys required _ [] (by simp) p hp

theorem emrParsed_keys (api : Option String) :
    ∀ p ∈ emrParsed api, p.1 ∈ requiredKeys := by
  intro p hp
  cases api with
  | none => simp [emrParsed] at hp
  | some r =>
    simp only [emrParsed] at hp
    split at hp
    · simp at hp
    · exact parseKV_keys requiredKeys r p hp

theorem fillMissing_nil (s : String) (acc : List (String × String)) :
    fillMissing [] s acc = acc := rfl

theorem fillMissing_cons (a : String) (ks : List String) (s : String)
    (acc : List (String × String)) :
    fillMissing (a :: ks) s acc = fillMissing ks s (fillStep s acc a) := rfl

theorem fillMissing_eq_append (ks : List String) (s : String) :
    ∀ acc, ∃ ext, fillMissing ks s acc = acc ++ ext := by
  induction ks with
  | nil => intro acc; exact ⟨[], by simp [fillMissing_nil]⟩
  | cons a ks ih =>
    intro acc
    rw [fillMissing_cons]
    obtain ⟨ext, he⟩ := ih (fillStep s acc a)
    by_cases h : hasKey acc a
    · rw [fillStep, if_pos h] at he
      rw [fillStep, if_pos h]
      exact ⟨ext, he⟩
    · rw [fillStep, if_neg h] at he
      rw [fillStep, if_neg h]
      exact ⟨(a, s) :: ext, by rw [he]; simp⟩

theorem fillMissing_hasKey_mono (ks : List String) (s : String)
    (acc : List (String × String)) (k : String) (h : hasKey acc k = true) :
    hasKey (fillMissing ks s acc) k = true := by
  obtain ⟨ext, he⟩ := fillMissing_eq_append ks s acc
  rw [he, hasKey_append, h, Bool.true_or]

theorem fillStep_hasKey_self (s : String) (acc : List (String × String)) (k : String) :
    hasKey (fillStep s acc k) k = true := by
  by_cases h : hasKey acc k
  · rwa [fillStep, if_pos h]
  · rw [fillStep, if_neg h, hasKey_append]
    simp [hasKey]

theorem fillMissing_hasKey_of_mem (ks : List String) (s : String) :
    ∀ (acc : List (String × String)) (k : String), k ∈ ks →
      hasKey (fillMissing ks s acc) k = true := by
  induction ks with
  | nil => intro acc k h; cases h
  | cons a ks ih =>
    intro acc k h
    rw [fillMissing_cons]
    rcases List.mem_cons.mp h with rfl | hk
    · exact fillMissing_hasKey_mono ks s _ k (fillStep_hasKey_self s acc k)
    · exact ih (fillStep s acc a) k hk

theorem fillMissing_keys_sub (ks : List String) (s : String) :
    ∀ (acc : List (String × String)) (p : String × String),
      p ∈ fillMissing ks s acc → p ∈ acc ∨ p.1 ∈ ks := by
  induction ks with
  | nil => intro acc p hp; left; simpa [fillMissing_nil] using hp
  | cons a ks ih =>
    intro acc p hp
    rw [fillMissing_cons] at hp
    rcases ih (fillStep s acc a) p hp with h | h
    · rw [fillStep] at h
      split at h
      · left; exact h
      · rcases List.mem_append.mp h with h' | h'
        · left; exact h'
        · right
          simp only [List.mem_singleton] at h'
          subst h'
          simp
    · right; exact List.mem_cons_of_mem a h

theorem fillMissing_lookup_sentinel (ks : List String) (s : String) :
    ks.Nodup → ∀ (acc : List (String × String)) (k : String), k ∈ ks →
      hasKey acc k = false → lookupKey (fillMissing ks s acc) k = some s := by
  induction ks with
  | nil => intro _ acc k h; cases h
  | cons a ks ih =>
    intro hnd acc k hk hacc
    rw [fillMissing_cons]
    rcases List.mem_cons.mp hk with rfl | hk'
    · rw [fillStep, if_neg (by simp [hacc])]
      obtain ⟨ext, he⟩ := fillMissing_eq_append ks s (acc ++ [(k, s)])
      rw [he, lookupKey_append,
        if_pos (by rw [hasKey_append, hacc, Bool.false_or]; simp [hasKey]),
        lookupKey_append, if_neg (by simp [hacc])]
      simp [lookupKey]
    · have hka : k ≠ a := by
        intro hEq
        subst hEq
        exact (List.nodup_cons.mp hnd).1 hk'
      apply ih (List.nodup_cons.mp hnd).2 (fillStep s acc a) k hk'
      rw [fillStep]
      split
      · exact hacc
      · rw [hasKey_append, hacc, Bool.false_or]
        simp only [hasKey, List.any_cons, List.any_nil, Bool.or_false,
          decide_eq_false_iff_not]
        exact Ne.symm hka

theorem requiredKeys_nodup : requiredKeys.Nodup := by decide

/-- C1 (amended): for every NON-empty input text and any remote reply
(including garbage with no colons), the extracted record's key set equals the
five required keys, and every required key the reply did not produce is bound
to `"Not mentioned"`. -/
theorem c1_amended (text : String) (api : Option String) (h : text ≠ "") :
    (∀ k, (lookupKey (extract_emr text api) k).isSome = true ↔ k ∈ requiredKeys) ∧
    (∀ k, k ∈ requiredKeys → hasKey (emrParsed api) k = false →
      lookupKey (extract_emr text api) k = some "Not mentioned") := by
  have hx : extract_emr text api = fillMissing requiredKeys "Not mentioned" (emrParsed api) := by
    rw [extract_emr, if_neg h]
  constructor
  · intro k
    rw [hx, lookupKey_isSome]
    constructor
    · intro hk
      rcases hasKey_exists _ _ hk with ⟨p, hp, rfl⟩
      rcases fillMissing_keys_sub _ _ _ _ hp with h' | h'
      · exact emrParsed_keys api p h'
      · exact h'
    · intro hk
      exact fillMissing_hasKey_of_mem _ _ _ _ hk
  · intro k hk hflat
    rw [hx]
    exact fillMissing_lookup_sentinel _ _ requiredKeys_nodup _ _ hk hflat

/-- C1 witness: a one-character input with a colon-free garbage reply gets all
five keys, each bound to the sentinel. -/
theorem c1_amended_witness :
    (lookupKey (extract_emr "x" (some "garbage with no colons")) "Allergies").isSome = true ∧
    lookupKey (extract_emr "x" (some "garbage with no colons")) "Allergies" =
      some "Not mentioned" := by
  have h := c1_amended "x" (some "garbage with no colons") (by decide)
  exact ⟨(h.1 "Allergies").mpr (by decide), h.2 "Allergies" (by decide) (by decide)⟩

/-- C1 counterexample: on the empty input text `extract_emr` returns the empty
mapping — even when the reply names a required field — so the returned key set
is not the five-key field specification. -/
theorem c1_counterexample :
    extract_emr "" (some "Presenting Complaint: fever") = [] ∧
    "Presenting Complaint" ∈ requiredKeys ∧
    lookupKey (extract_emr "" (some "Presenting Complaint: fever"))
      "Presenting Complaint" = none :=
  ⟨rfl, by decide, rfl⟩

/-- C3: the decision table sends `(ml, null)` to Malayalam, `(null, en)` to
English, `(null, null)` to English, and the conflicting cross-classification
`(en, ml)` to the English default. -/
theorem c3_decision_table :
    decideLanguage (some "ml") none = "ml" ∧
    decideLanguage none (some "en") = "en" ∧
    decideLanguage none none = "en" ∧
    decideLanguage (some "en") (some "ml") = "en" := by
  refine ⟨by decide, by decide, by decide, by decide⟩

theorem decideLanguage_en_or_ml (a b : Option String) :
    decideLanguage a b = "en" ∨ decideLanguage a b = "ml" := by
  unfold decideLanguage
  split_ifs <;> simp

/-! ## C2: the Model Inference Runner's error marker -/

theorem listStarts_self_append : ∀ n t : List Char, listStarts n (n ++ t) = true := by
  intro n
  induction n with
  | nil => intro t; rfl
  | cons a as ih => intro t; simp [listStarts, ih]

/-- C2 counterexample: when the underlying inference raises, the returned text
is `Error during transcription processing with '<key>'.`, which neither begins
with nor even contains the `Error:` marker — so the advertised prefix check
does not recognize this failure. -/
theorem c2_counterexample :
    run_pipeline_async ["whisper_en"] "whisper_en" (.error ()) =
      "Error during transcription processing with 'whisper_en'." ∧
    strStartsWith "Error:"
      (run_pipeline_async ["whisper_en"] "whisper_en" (.error ())) = false ∧
    hasSubstr (run_pipeline_async ["whisper_en"] "whisper_en" (.error ()))
      "Error:" = false :=
  ⟨rfl, rfl, rfl⟩

/-- C2 (amended): only the registry-miss failure carries the `Error:` marker
(the returned text begins with it); a raised inference instead returns the
fixed text `Error during transcription processing with '<key>'.`, which does
not contain `Error:`. -/
theorem c2_amended (registry : List String) (key : String) (infer : Except Unit RawOut) :
    (registry.any (fun k => decide (k = key)) = false →
      strStartsWith "Error:" (run_pipeline_async registry key infer) = true) ∧
    (registry.any (fun k => decide (k = key)) = true →
      run_pipeline_async registry key (.error ()) =
        "Error during transcription processing with '" ++ key ++ "'.") := by
  constructor
  · intro h
    rw [run_pipeline_async.eq_def, if_pos (by simp [h])]
    rw [strStartsWith]
    have hsplit : "Error: Pipeline '".data = "Error:".data ++ " Pipeline '".data := rfl
    have hd : ("Error: Pipeline '" ++ key ++ "' not available.").data =
        "Error:".data ++ (" Pipeline '".data ++ (key.data ++ "' not available.".data)) := by
      simp only [String.data_append, hsplit, List.append_assoc]
      rfl
    rw [hd]
    exact listStarts_self_append _ _
  · intro h
    rw [run_pipeline_async.eq_def, if_neg (by simp [h])]

/-- C2 witness: the two amended facts at concrete inputs — an empty registry
yields the `Error:`-prefixed text, a loaded registry with a raising inference
yields the fixed marker-free text. -/
theorem c2_amended_witness :
    strStartsWith "Error:"
      (run_pipeline_async [] "whisper_en" (.ok (.dictText "x"))) = true ∧
    run_pipeline_async ["whisper_en"] "whisper_en" (.error ()) =
      "Error during transcription processing with '" ++ "whisper_en" ++ "'." :=
  ⟨(c2_amended [] "whisper_en" (.ok (.dictText "x"))).1 rfl,
   (c2_amended ["whisper_en"] "whisper_en" (.error ())).2 rfl⟩

/-! ## C4: totality of language detection -/

/-- C4: language detection is total — for every audio length, sample rate and
oracle behaviour (including failing models and classifier), it returns a
member of `{"en", "ml"}` and can do nothing else. -/
theorem c4_detect_total (audioLen : Nat) (sr : Int) (env : DetectEnv) :
    detect_language_from_audio audioLen sr env = "en" ∨
    detect_language_from_audio audioLen sr env = "ml" := by
  simp only [detect_language_from_audio]
  split_ifs <;> first
    | (left; rfl)
    | apply decideLanguage_en_or_ml

/-! ## C6 and C7: the retry loop of the remote client -/

/-- A 500-class (server error) attempt outcome. -/
def isServer5xx (o : AttemptOutcome) : Prop :=
  ∃ s ra, o = .httpError s ra ∧ 500 ≤ s ∧ s < 600

theorem callLoop_allServer (out : Nat → AttemptOutcome)
    (h : ∀ i, isServer5xx (out i)) :
    ∀ l idx delay count sleeps,
      callLoop out idx (l + 1) delay count sleeps =
        ⟨none, count + (l + 1), sleeps ++ (List.range l).map (fun i => delay * 2 ^ i)⟩ := by
  intro l
  induction l with
  | zero =>
    intro idx delay count sleeps
    obtain ⟨s, ra, ho, hs1, hs2⟩ := h idx
    simp only [callLoop, ho]
    rw [if_neg (by omega), if_neg (by omega)]
    simp
  | succ l ih =>
    intro idx delay count sleeps
    obtain ⟨s, ra, ho, hs1, hs2⟩ := h idx
    have key : callLoop out idx (l + 1 + 1) delay count sleeps =
        callLoop out (idx + 1) (l + 1) (delay * 2) (count + 1) (sleeps ++ [delay]) := by
      generalize hm : l + 1 = m
      simp only [callLoop, ho]
      rw [if_neg (by omega), if_pos ⟨hs1, hs2, by omega⟩]
    rw [key, ih (idx + 1) (delay * 2) (count + 1) (sleeps ++ [delay])]
    simp only [CallResult.mk.injEq, true_and]
    constructor
    · omega
    · rw [List.append_assoc]
      congr 1
      rw [List.range_succ_eq_map, List.map_cons, List.map_map]
      simp only [pow_zero, mul_one, List.singleton_append, List.cons.injEq, true_and]
      apply List.map_congr_left
      intro i _
      simp only [Function.comp_apply, Nat.succ_eq_add_one, pow_succ]
      ring

/-- C6: against a service that answers every attempt with a 500-class error,
`call_gemini_api` issues exactly `retries + 1` attempts, returns `None`
(failure, not an exception), and sleeps `delay, 2*delay, 4*delay, …` between
attempts — the delay doubling after each server-error attempt. -/
theorem c6_retry_bound (out : Nat → AttemptOutcome) (retries delay : Nat)
    (h : ∀ i, isServer5xx (out i)) :
    call_gemini_api true out retries delay =
      ⟨none, retries + 1, (List.range retries).map (fun i => delay * 2 ^ i)⟩ := by
  rw [call_gemini_api, if_pos rfl, callLoop_allServer out h retries 0 delay 0 []]
  simp

/-- C6 witness: an always-503 service with `retries = 2`, `delay = 1` gives 3
attempts, no result, and sleeps `[1, 2]`. -/
theorem c6_retry_bound_witness :
    call_gemini_api true out5xx 2 1 = ⟨none, 3, [1, 2]⟩ := by
  rw [c6_retry_bound out5xx 2 1 (fun _ => ⟨503, none, rfl, by omega, by omega⟩)]
  rfl

/-- C7 counterexample: with configured delay 2 and a 500 on the first attempt,
a header-less 429 on the second attempt is followed by a sleep of 8 seconds —
the current (already doubled) delay doubled — not the configured delay doubled
(which would be 4). -/
theorem c7_counterexample :
    call_gemini_api true out429 2 2 = ⟨some "ok", 3, [2, 8]⟩ ∧
    (8 : Nat) ≠ 2 * 2 :=
  ⟨rfl, by decide⟩

/-- C7 (amended): with retry budget remaining, a 429 with `Retry-After: R`
sleeps exactly `R` (hence at least `R`) before the next attempt and makes `R`
the new delay; a 429 without the header sleeps the CURRENT delay doubled —
the current delay starts at the configured value but is updated by earlier
retry waits, so it equals the configured delay doubled only on a first
adjustment. -/
theorem c7_amended (out : Nat → AttemptOutcome) (idx l delay count : Nat)
    (sleeps : List Nat) :
    (∀ R, out idx = .httpError 429 (some R) →
      callLoop out idx (l + 2) delay count sleeps =
        callLoop out (idx + 1) (l + 1) R (count + 1) (sleeps ++ [R])) ∧
    (out idx = .httpError 429 none →
      callLoop out idx (l + 2) delay count sleeps =
        callLoop out (idx + 1) (l + 1) (delay * 2) (count + 1)
          (sleeps ++ [delay * 2])) := by
  constructor
  · intro R hR
    show callLoop out idx ((l + 1) + 1) delay count sleeps = _
    generalize hm : l + 1 = m
    simp only [callLoop, hR]
    rw [if_pos ⟨trivial, by omega⟩]
    rfl
  · intro hR
    show callLoop out idx ((l + 1) + 1) delay count sleeps = _
    generalize hm : l + 1 = m
    simp only [callLoop, hR]
    rw [if_pos ⟨trivial, by omega⟩]
    rfl

/-- C7 witness: the two amended facts at concrete inputs — `Retry-After: 9`
sleeps 9; no header with current delay 2 sleeps 4. -/
theorem c7_amended_witness :
    callLoop (fun _ => .httpError 429 (some 9)) 0 3 2 0 [] =
      callLoop (fun _ => .httpError 429 (some 9)) 1 2 9 1 [9] ∧
    callLoop (fun _ => .httpError 429 none) 0 3 2 0 [] =
      callLoop (fun _ => .httpError 429 none) 1 2 4 1 [4] :=
  ⟨(c7_amended (fun _ => .httpError 429 (some 9)) 0 1 2 0 []).1 9 rfl,
   (c7_amended (fun _ => .httpError 429 none) 0 1 2 0 []).2 rfl⟩

/-! ## C5, C8, C9, C10: the route orchestration -/

theorem gate_false_of_sentinels (emr : List (String × String))
    (h : ∀ p ∈ emr, pyLower p.2 ∈ sentinelValues) : isMeaningfulEmr emr = false := by
  rw [isMeaningfulEmr, List.any_eq_false]
  intro p hp
  have hs : sentinelValues.any (fun s => decide (s = pyLower p.2)) = true :=
    List.any_eq_true.mpr ⟨pyLower p.2, h p hp, by simp⟩
  simp [hs]

theorem extract_emr_ne_nil (text : String) (api : Option String) (h : text ≠ "") :
    extract_emr text api ≠ [] := by
  intro hemp
  have hk := fillMissing_hasKey_of_mem requiredKeys "Not mentioned" (emrParsed api)
    "Presenting Complaint" (by decide)
  rw [show fillMissing requiredKeys "Not mentioned" (emrParsed api) = extract_emr text api by
        rw [extract_emr, if_neg h],
    hemp] at hk
  exact Bool.false_ne_true hk

/-- C5: a transcription result carrying the `Error:` marker makes the route
raise an `InternalServerError` and perform neither record extraction nor
suggestion generation; without the marker the route always assembles a
success response, so the Transcribed stage is the only fatal one. -/
theorem c5_transcribed_fatal (dm lang : String) (env : RouteEnv) :
    (hasSubstr (transcribedRaw lang env) "Error:" = true →
      (transcribe_audio_route dm lang env).result =
        .error ("Transcription failed: " ++ transcribedRaw lang env) ∧
      (transcribe_audio_route dm lang env).extractCalled = false ∧
      (transcribe_audio_route dm lang env).suggestCalled = false) ∧
    (hasSubstr (transcribedRaw lang env) "Error:" = false →
      ∃ resp, (transcribe_audio_route dm lang env).result = .ok resp) := by
  by_cases hl : lang = "ml"
  · constructor
    · intro h
      rw [transcribedRaw, if_pos hl] at h ⊢
      simp only [transcribe_audio_route]
      rw [if_pos hl, if_pos h]
      exact ⟨rfl, rfl, rfl⟩
    · intro h
      rw [transcribedRaw, if_pos hl] at h
      simp only [transcribe_audio_route]
      rw [if_pos hl, if_neg (by simp [h])]
      by_cases hr : pyStrip (run_pipeline_async env.registry "whisper_ml" env.mlInfer) = ""
      · rw [if_pos hr]
        exact ⟨_, rfl⟩
      · rw [if_neg hr]
        exact ⟨_, rfl⟩
  · constructor
    · intro h
      rw [transcribedRaw, if_neg hl] at h ⊢
      simp only [transcribe_audio_route]
      rw [if_neg hl, if_pos h]
      exact ⟨rfl, rfl, rfl⟩
    · intro h
      rw [transcribedRaw, if_neg hl] at h
      simp only [transcribe_audio_route]
      rw [if_neg hl, if_neg (by simp [h])]
      exact ⟨_, rfl⟩

/-- C5 witness: a registry-miss transcription (whose text carries `Error:`)
fails the request with no extraction or suggestions, and a healthy request
yields a success response. -/
theorem c5_transcribed_fatal_witness :
    ((transcribe_audio_route "automatic" "en" envMissingModel).result =
      .error ("Transcription failed: " ++ transcribedRaw "en" envMissingModel) ∧
     (transcribe_audio_route "automatic" "en" envMissingModel).extractCalled = false ∧
     (transcribe_audio_route "automatic" "en" envMissingModel).suggestCalled = false) ∧
    (∃ resp, (transcribe_audio_route "automatic" "en" envPlainEnglish).result = .ok resp) :=
  ⟨(c5_transcribed_fatal "automatic" "en" envMissingModel).1 rfl,
   (c5_transcribed_fatal "automatic" "en" envPlainEnglish).2 rfl⟩

/-- C9: the fatal-transcription test is substring containment — any
transcription whose text contains `Error:` anywhere makes the request fail
with a processing error. -/
theorem c9_substring_check (dm lang : String) (env : RouteEnv)
    (h : hasSubstr (transcribedRaw lang env) "Error:" = true) :
    ∃ msg, (transcribe_audio_route dm lang env).result = .error msg := by
  by_cases hl : lang = "ml"
  · rw [transcribedRaw, if_pos hl] at h
    simp only [transcribe_audio_route]
    rw [if_pos hl, if_pos h]
    exact ⟨_, rfl⟩
  · rw [transcribedRaw, if_neg hl] at h
    simp only [transcribe_audio_route]
    rw [if_neg hl, if_pos h]
    exact ⟨_, rfl⟩

/-- C9 witness: a successful transcription that legitimately contains
`Error:` mid-sentence — not as a prefix — still fails the request. -/
theorem c9_substring_check_witness :
    strStartsWith "Error:" (transcribedRaw "en" envSpokenError) = false ∧
    ∃ msg, (transcribe_audio_route "automatic" "en" envSpokenError).result = .error msg :=
  ⟨rfl, c9_substring_check "automatic" "en" envSpokenError rfl⟩

/-- C8: a non-empty, non-error transcription whose extracted record holds
only sentinel/placeholder values (case-insensitively) fails the
meaningfulness gate; the suggestion call is not attempted and the response's
suggestions object carries the informational flag. -/
theorem c8_sentinel_gate (dm : String) (env : RouteEnv)
    (h1 : hasSubstr (transcribedRaw "en" env) "Error:" = false)
    (h2 : transcribedRaw "en" env ≠ "")
    (h3 : ∀ p ∈ extract_emr (transcribedRaw "en" env) env.emrApi,
      pyLower p.2 ∈ sentinelValues) :
    isMeaningfulEmr (extract_emr (transcribedRaw "en" env) env.emrApi) = false ∧
    (transcribe_audio_route dm "en" env).suggestCalled = false ∧
    (transcribe_audio_route dm "en" env).result =
      .ok ⟨dm, "en", transcribedRaw "en" env, transcribedRaw "en" env,
        extract_emr (transcribedRaw "en" env) env.emrApi,
        [("info", "Suggestions not generated due to non-informative EMR data.")]⟩ := by
  have hen : ("en" : String) ≠ "ml" := by decide
  rw [transcribedRaw, if_neg hen] at h1 h2 h3 ⊢
  have hgate := gate_false_of_sentinels _ h3
  have hne := extract_emr_ne_nil
    (pyStrip (run_pipeline_async env.registry "whisper_en" env.enInfer)) env.emrApi h2
  have hst : emrSuggestStage env
      (pyStrip (run_pipeline_async env.registry "whisper_en" env.enInfer)) =
      ⟨extract_emr (pyStrip (run_pipeline_async env.registry "whisper_en" env.enInfer))
          env.emrApi,
        [("info", "Suggestions not generated due to non-informative EMR data.")],
        true, false⟩ := by
    simp only [emrSuggestStage]
    rw [if_pos ⟨h2, h1⟩, if_pos hne, if_neg (by simp [hgate])]
  refine ⟨hgate, ?_, ?_⟩ <;>
  · simp only [transcribe_audio_route]
    rw [if_neg (by simp), if_neg (by simp [h1]), hst]

/-- C8 witness: a successful small-talk transcription with a failed
extraction call yields the all-sentinel record, which is gated as not
meaningful and produces the informational suggestions flag. -/
theorem c8_sentinel_gate_witness :
    isMeaningfulEmr (extract_emr (transcribedRaw "en" envPlainEnglish)
      envPlainEnglish.emrApi) = false ∧
    (transcribe_audio_route "automatic" "en" envPlainEnglish).suggestCalled = false ∧
    (transcribe_audio_route "automatic" "en" envPlainEnglish).result =
      .ok ⟨"automatic", "en", transcribedRaw "en" envPlainEnglish,
        transcribedRaw "en" envPlainEnglish,
        extract_emr (transcribedRaw "en" envPlainEnglish) envPlainEnglish.emrApi,
        [("info", "Suggestions not generated due to non-informative EMR data.")]⟩ :=
  c8_sentinel_gate "automatic" envPlainEnglish rfl (by decide) (by decide)

/-- C10: on the Malayalam path, a translation whose returned text contains
`unavailable` (case-insensitively) anywhere is treated as failed — the
canonical English text is cleared to empty and extraction and suggestions are
skipped with the informational flags. -/
theorem c10_unavailable_translation (dm : String) (env : RouteEnv)
    (h1 : hasSubstr (transcribedRaw "ml" env) "Error:" = false)
    (h2 : transcribedRaw "ml" env ≠ "")
    (h3 : hasSubstr
      (pyLower (translate_with_gemini (transcribedRaw "ml" env) env.translateApi))
      "unavailable" = true) :
    (transcribe_audio_route dm "ml" env).result =
      .ok ⟨dm, "ml", transcribedRaw "ml" env, "",
        [("info", "EMR not generated due to issues in prior steps.")],
        [("info", "Suggestions not generated due to issues in prior steps.")]⟩ ∧
    (transcribe_audio_route dm "ml" env).extractCalled = false ∧
    (transcribe_audio_route dm "ml" env).suggestCalled = false := by
  have hml : ("ml" : String) = "ml" := rfl
  rw [transcribedRaw, if_pos hml] at h1 h2 h3 ⊢
  have hst : emrSuggestStage env "" =
      ⟨[("info", "EMR not generated due to issues in prior steps.")],
        [("info", "Suggestions not generated due to issues in prior steps.")],
        false, false⟩ := by
    simp only [emrSuggestStage]
    rw [if_neg (by simp)]
  simp only [transcribe_audio_route]
  rw [if_pos trivial, if_neg (by simp [h1]), if_neg h2, if_pos (Or.inr h3), hst]
  exact ⟨rfl, rfl, rfl⟩

/-- C10 witness: a successful translation that happens to contain the word
`unavailable` is discarded — empty canonical text, informational flags, no
extraction and no suggestion call. -/
theorem c10_unavailable_translation_witness :
    (transcribe_audio_route "automatic" "ml" envUnavailableWord).result =
      .ok ⟨"automatic", "ml", transcribedRaw "ml" envUnavailableWord, "",
        [("info", "EMR not generated due to issues in prior steps.")],
        [("info", "Suggestions not generated due to issues in prior steps.")]⟩ ∧
    (transcribe_audio_route "automatic" "ml" envUnavailableWord).extractCalled = false ∧
    (transcribe_audio_route "automatic" "ml" envUnavailableWord).suggestCalled = false :=
  c10_unavailable_translation "automatic" envUnavailableWord rfl (by decide) rfl

end Meditech
